import Mathlib

/-!
Verification of the ALMEER pairing-site session lifecycle (src/index.js).

Shallow embedding of the Express/Baileys pairing server: the in-memory
session registry (a JS `Map`), the on-disk per-session credential
directories, `encodeSession`, `cleanupSession`, the `/api/pair`,
`/api/status/:sessionId` and `/api/session/:sessionId` handlers, and the
`connection.update` callback.  The repository file contains three
near-duplicate copies of the server; definitions with suffix `2` embed the
second copy where it differs (validation threshold, `encodeSession`
without the `isFile` check).
-/

namespace Almeer

/-! ## Association-list model of the JS `Map` (string keys) -/

/-- The JS method `Map.get`: value of the first entry with the given key. -/
def aget {α : Type} (m : List (String × α)) (k : String) : Option α :=
  match m with
  | [] => none
  | (k', v) :: rest => if k' = k then some v else aget rest k

/-- The JS method `Map.set`: replace the entry for the key, or append a fresh one. -/
def aset {α : Type} (m : List (String × α)) (k : String) (v : α) :
    List (String × α) :=
  match m with
  | [] => [(k, v)]
  | (k', v') :: rest =>
      if k' = k then (k, v) :: rest else (k', v') :: aset rest k v

/-- The JS method `Map.delete`: drop every entry with the given key. -/
def aerase {α : Type} (m : List (String × α)) (k : String) :
    List (String × α) :=
  m.filter (fun p => p.1 ≠ k)

theorem aget_aset {α : Type} (m : List (String × α)) (k k' : String) (v : α) :
    aget (aset m k v) k' = if k = k' then some v else aget m k' := by
  induction m with
  | nil => by_cases h : k = k' <;> simp [aset, aget, h]
  | cons p rest ih =>
      obtain ⟨k₀, v₀⟩ := p
      by_cases h0 : k₀ = k
      · by_cases h1 : k = k' <;> simp [aset, aget, h0, h1]
      · by_cases h1 : k₀ = k'
        · subst h1
          have hk : ¬ k = k₀ := fun h => h0 h.symm
          simp [aset, aget, h0, hk]
        · simp [aset, aget, h0, h1, ih]

theorem aget_aerase {α : Type} (m : List (String × α)) (k k' : String) :
    aget (aerase m k) k' = if k = k' then none else aget m k' := by
  induction m with
  | nil => simp [aerase, aget]
  | cons p rest ih =>
      obtain ⟨k₀, v₀⟩ := p
      by_cases h0 : k₀ = k
      · subst h0
        by_cases h1 : k₀ = k' <;>
          simpa [aerase, aget, h1] using ih
      · by_cases h1 : k₀ = k'
        · subst h1
          have hk : ¬ k = k₀ := fun h => h0 h.symm
          simp [aerase, aget, h0, hk]
        · simpa [aerase, aget, h0, h1] using ih

theorem aerase_aerase {α : Type} (m : List (String × α)) (k : String) :
    aerase (aerase m k) k = aerase m k := by
  simp [aerase, List.filter_filter]

theorem aget_aerase_self {α : Type} (m : List (String × α)) (k : String) :
    aget (aerase m k) k = none := by
  simp [aget_aerase]

/-! ## Filesystem model

A session directory is a list of entries in `readdirSync` order.  A
`file` entry is a regular file whose `readFileSync` succeeds with the
given text; a `subdir` entry is a directory; an `unreadable` entry is one
whose `statSync`/`readFileSync` raises (e.g. a broken symlink).  A whole
directory is `Option (List Entry)`: `none` when the path does not exist. -/

inductive Entry : Type where
  | file (name : String) (content : String)
  | subdir (name : String)
  | unreadable (name : String)
deriving DecidableEq, Repr

def Entry.name : Entry → String
  | .file n _ => n
  | .subdir n => n
  | .unreadable n => n

/-- The check `fs.existsSync` applied to `creds.json` inside the session directory. -/
def hasCreds (entries : List Entry) : Bool :=
  entries.any (fun e => e.name = "creds.json")

/-! ## JSON serialization (`JSON.stringify` of a string-to-string object) -/

def hexDigit (n : Nat) : Char :=
  if n < 10 then Char.ofNat (48 + n) else Char.ofNat (87 + n)

/-- The `JSON.stringify` escaping of one character of a string value. -/
def jsonEscapeChar (c : Char) : List Char :=
  if c = '"' then ['\\', '"']
  else if c = '\\' then ['\\', '\\']
  else if c = '\x08' then ['\\', 'b']
  else if c = '\t' then ['\\', 't']
  else if c = '\n' then ['\\', 'n']
  else if c = '\x0c' then ['\\', 'f']
  else if c = '\r' then ['\\', 'r']
  else if c.toNat < 32 then
    ['\\', 'u', '0', '0', hexDigit (c.toNat / 16), hexDigit (c.toNat % 16)]
  else [c]

def jsonQuote (s : String) : String :=
  String.mk ('"' :: (s.toList.map jsonEscapeChar).flatten ++ ['"'])

/-- The call `JSON.stringify(files)` where `files` maps filename to content, in
insertion order. -/
def jsonStringify (fs : List (String × String)) : String :=
  "\x7b" ++
    String.intercalate "," (fs.map (fun p => jsonQuote p.1 ++ ":" ++ jsonQuote p.2)) ++
  "\x7d"

/-! ## UTF-8 (`Buffer.from(string)`) -/

def utf8EncodeChar (c : Char) : List Nat :=
  let n := c.toNat
  if n < 128 then [n]
  else if n < 2048 then [192 + n / 64, 128 + n % 64]
  else if n < 65536 then [224 + n / 4096, 128 + (n / 64) % 64, 128 + n % 64]
  else [240 + n / 262144, 128 + (n / 4096) % 64, 128 + (n / 64) % 64, 128 + n % 64]

def strBytes (s : String) : List Nat :=
  (s.toList.map utf8EncodeChar).flatten

/-! ## Base64 (the Buffer conversion to a base64 string) -/

def b64Char (n : Nat) : Char :=
  ("ABCDEFGHIJKLMNOPQRSTUVWXYZabcdefghijklmnopqrstuvwxyz0123456789+/".toList).getD n 'A'

def base64EncodeCore : List Nat → List Char
  | [] => []
  | [a] => [b64Char (a / 4), b64Char (a % 4 * 16), '=', '=']
  | [a, b] => [b64Char (a / 4), b64Char (a % 4 * 16 + b / 16), b64Char (b % 16 * 4), '=']
  | a :: b :: c :: rest =>
      b64Char (a / 4) :: b64Char (a % 4 * 16 + b / 16) ::
      b64Char (b % 16 * 4 + c / 64) :: b64Char (c % 64) :: base64EncodeCore rest

def base64Encode (bytes : List Nat) : String :=
  String.mk (base64EncodeCore bytes)

/-! ## The credential encoder, `encodeSession` (first and third copy) -/

/-- The loop body of `encodeSession`: `statSync` each entry, keep regular
files, `readFileSync` them; any raised error aborts the whole loop
(`none`). -/
def collectFiles : List Entry → Option (List (String × String))
  | [] => some []
  | .file n c :: rest => (collectFiles rest).map (fun fs => (n, c) :: fs)
  | .subdir _ :: rest => collectFiles rest
  | .unreadable _ :: _ => none

/-- The function `encodeSession(sessionPath)` of the first (and third) copy: `null`
when `creds.json` is absent or any filesystem call raises; otherwise the
base64 of the JSON object mapping each direct regular-file child to its
content. -/
def encodeSession (dir : Option (List Entry)) : Option String :=
  match dir with
  | none => none
  | some entries =>
      if hasCreds entries then
        (collectFiles entries).map (fun fs => base64Encode (strBytes (jsonStringify fs)))
      else none

/-- The loop body of the second copy of `encodeSession`: it calls
`readFileSync` on every directory entry without a `statSync`/`isFile`
check, so a subdirectory entry raises `EISDIR` and aborts the loop. -/
def collectFiles2 : List Entry → Option (List (String × String))
  | [] => some []
  | .file n c :: rest => (collectFiles2 rest).map (fun fs => (n, c) :: fs)
  | .subdir _ :: _ => none
  | .unreadable _ :: _ => none

/-- The function `encodeSession(sessionPath)` of the second copy. -/
def encodeSession2 (dir : Option (List Entry)) : Option String :=
  match dir with
  | none => none
  | some entries =>
      if hasCreds entries then
        (collectFiles2 entries).map (fun fs => base64Encode (strBytes (jsonStringify fs)))
      else none

/-! ## Decoding (the spec: base64-decode followed by JSON parse)

These definitions are the inverse direction demanded by the round-trip
property of the spec; they are not part of the source program. -/

def b64Val (c : Char) : Option Nat :=
  if 'A' ≤ c ∧ c ≤ 'Z' then some (c.toNat - 65)
  else if 'a' ≤ c ∧ c ≤ 'z' then some (c.toNat - 71)
  else if '0' ≤ c ∧ c ≤ '9' then some (c.toNat + 4)
  else if c = '+' then some 62
  else if c = '/' then some 63
  else none

def base64DecodeCore : List Char → Option (List Nat)
  | [] => some []
  | [a, b, '=', '='] => do
      let x ← b64Val a
      let y ← b64Val b
      pure [x * 4 + y / 16]
  | [a, b, c, '='] => do
      let x ← b64Val a
      let y ← b64Val b
      let z ← b64Val c
      pure [x * 4 + y / 16, y % 16 * 16 + z / 4]
  | a :: b :: c :: d :: rest => do
      let x ← b64Val a
      let y ← b64Val b
      let z ← b64Val c
      let w ← b64Val d
      let tail ← base64DecodeCore rest
      pure ((x * 4 + y / 16) :: (y % 16 * 16 + z / 4) :: (z % 4 * 64 + w) :: tail)
  | _ => none

def base64Decode (s : String) : Option (List Nat) :=
  base64DecodeCore s.toList

def utf8DecodeAux : Nat → List Nat → Option (List Char)
  | _, [] => some []
  | 0, _ :: _ => none
  | fuel + 1, b :: rest =>
      if b < 128 then
        (utf8DecodeAux fuel rest).map (fun cs => Char.ofNat b :: cs)
      else if b < 224 then
        match rest with
        | b2 :: rest2 =>
            if 192 ≤ b ∧ 128 ≤ b2 ∧ b2 < 192 then
              (utf8DecodeAux fuel rest2).map
                (fun cs => Char.ofNat ((b - 192) * 64 + (b2 - 128)) :: cs)
            else none
        | [] => none
      else if b < 240 then
        match rest with
        | b2 :: b3 :: rest3 =>
            if 128 ≤ b2 ∧ b2 < 192 ∧ 128 ≤ b3 ∧ b3 < 192 then
              (utf8DecodeAux fuel rest3).map
                (fun cs =>
                  Char.ofNat ((b - 224) * 4096 + (b2 - 128) * 64 + (b3 - 128)) :: cs)
            else none
        | _ => none
      else
        match rest with
        | b2 :: b3 :: b4 :: rest4 =>
            if b < 248 ∧ 128 ≤ b2 ∧ b2 < 192 ∧ 128 ≤ b3 ∧ b3 < 192 ∧
                128 ≤ b4 ∧ b4 < 192 then
              (utf8DecodeAux fuel rest4).map
                (fun cs =>
                  Char.ofNat ((b - 240) * 262144 + (b2 - 128) * 4096 +
                    (b3 - 128) * 64 + (b4 - 128)) :: cs)
            else none
        | _ => none

def utf8Decode (bytes : List Nat) : Option String :=
  (utf8DecodeAux bytes.length bytes).map String.mk

def isJsonWs (c : Char) : Bool :=
  c = ' ' || c = '\t' || c = '\n' || c = '\r'

def hexVal (c : Char) : Option Nat :=
  if '0' ≤ c ∧ c ≤ '9' then some (c.toNat - 48)
  else if 'a' ≤ c ∧ c ≤ 'f' then some (c.toNat - 87)
  else if 'A' ≤ c ∧ c ≤ 'F' then some (c.toNat - 55)
  else none

/-- Parse a JSON string literal after its opening quote; returns the
decoded string and the unconsumed input. -/
def parseJsonString : List Char → Option (List Char × List Char)
  | [] => none
  | '"' :: rest => some ([], rest)
  | '\\' :: rest =>
      match rest with
      | 'u' :: h1 :: h2 :: h3 :: h4 :: rest4 => do
          let v1 ← hexVal h1
          let v2 ← hexVal h2
          let v3 ← hexVal h3
          let v4 ← hexVal h4
          let (cs, rem) ← parseJsonString rest4
          pure (Char.ofNat (v1 * 4096 + v2 * 256 + v3 * 16 + v4) :: cs, rem)
      | e :: rest1 => do
          let c ←
            if e = '"' then some '"'
            else if e = '\\' then some '\\'
            else if e = '/' then some '/'
            else if e = 'b' then some '\x08'
            else if e = 'f' then some '\x0c'
            else if e = 'n' then some '\n'
            else if e = 'r' then some '\r'
            else if e = 't' then some '\t'
            else none
          let (cs, rem) ← parseJsonString rest1
          pure (c :: cs, rem)
      | [] => none
  | c :: rest =>
      if c.toNat < 32 then none
      else (parseJsonString rest).map (fun p => (c :: p.1, p.2))

/-- The members of a JSON object of string values: a fuel-bounded loop
parsing comma-separated `"key":"value"` pairs up to the closing brace. -/
def parseJsonMembers : Nat → List Char → Option (List (String × String) × List Char)
  | 0, _ => none
  | fuel + 1, input => do
      let input1 := input.dropWhile isJsonWs
      match input1 with
      | '"' :: rest => do
          let (k, rem1) ← parseJsonString rest
          let rem2 := rem1.dropWhile isJsonWs
          match rem2 with
          | ':' :: rem3 => do
              let rem4 := rem3.dropWhile isJsonWs
              match rem4 with
              | '"' :: rem5 => do
                  let (v, rem6) ← parseJsonString rem5
                  let rem7 := rem6.dropWhile isJsonWs
                  match rem7 with
                  | ',' :: rem8 => do
                      let (tail, rem9) ← parseJsonMembers fuel rem8
                      pure ((String.mk k, String.mk v) :: tail, rem9)
                  | '\x7d' :: rem8 => pure ([(String.mk k, String.mk v)], rem8)
                  | _ => none
              | _ => none
          | _ => none
      | _ => none

/-- The call `JSON.parse` restricted to objects whose values are strings, the shape
produced by the encoder. -/
def jsonParse (s : String) : Option (List (String × String)) :=
  let input := s.toList.dropWhile isJsonWs
  match input with
  | '\x7b' :: rest =>
      let rest1 := rest.dropWhile isJsonWs
      match rest1 with
      | '\x7d' :: rem =>
          if (rem.dropWhile isJsonWs).isEmpty then some [] else none
      | _ =>
          match parseJsonMembers (rest.length + 1) rest with
          | some (fs, rem) =>
              if (rem.dropWhile isJsonWs).isEmpty then some fs else none
          | none => none
  | _ => none

/-- The spec-side decoding pipeline: base64-decode the blob, read the
bytes as UTF-8 text, JSON-parse the text into a filename-to-content
mapping. -/
def decodeBlob (blob : String) : Option (List (String × String)) := do
  let bytes ← base64Decode blob
  let text ← utf8Decode bytes
  jsonParse text

/-- The direct regular-file children of a directory, in `readdirSync`
order, with their contents. -/
def regularFiles (entries : List Entry) : List (String × String) :=
  entries.filterMap (fun e =>
    match e with
    | .file n c => some (n, c)
    | _ => none)

/-! ## Pairing-code formatting -/

/-- Characters the regex metacharacter `.` does not match in JS (no `s`
flag): line terminators. -/
def isLineTerm (c : Char) : Bool :=
  c = '\n' || c = '\r' || c = Char.ofNat 8232 || c = Char.ofNat 8233

/-- The successive matches of the global regex `/.{1,4}/g`: greedy runs of
up to four non-line-terminator characters, scanning left to right; a
position `.` cannot match is skipped and scanning resumes right after
it. -/
def dotChunks : List Char → List (List Char)
  | [] => []
  | c1 :: t1 =>
      if isLineTerm c1 then dotChunks t1
      else match t1 with
        | [] => [[c1]]
        | c2 :: t2 =>
            if isLineTerm c2 then [c1] :: dotChunks t2
            else match t2 with
              | [] => [[c1, c2]]
              | c3 :: t3 =>
                  if isLineTerm c3 then [c1, c2] :: dotChunks t3
                  else match t3 with
                    | [] => [[c1, c2, c3]]
                    | c4 :: t4 =>
                        if isLineTerm c4 then [c1, c2, c3] :: dotChunks t4
                        else [c1, c2, c3, c4] :: dotChunks t4

/-- The raw code partitioned left-to-right into groups of at most four
characters.  This is the wording of the spec, for comparison with the
regex-based `formatCode` of the source. -/
def chunksOf4 : List Char → List (List Char)
  | [] => []
  | [a] => [[a]]
  | [a, b] => [[a, b]]
  | [a, b, c] => [[a, b, c]]
  | a :: b :: c :: d :: rest => [a, b, c, d] :: chunksOf4 rest

def partitionJoin (code : String) : String :=
  String.intercalate "-" ((chunksOf4 code.toList).map String.mk)

/-- The expression `code?.match(/.\x7b1,4\x7d/g)?.join('-') || code`. -/
def formatCode (code : String) : String :=
  match dotChunks code.toList with
  | [] => code
  | chunks => String.intercalate "-" (chunks.map String.mk)

/-! ## Server state -/

/-- The values ever assigned to the `status` field of a session record
(pending at creation, connected in the open handler). -/
inductive SessStatus : Type where
  | pending
  | connected
deriving DecidableEq, Repr

def SessStatus.str : SessStatus → String
  | .pending => "pending"
  | .connected => "connected"

/-- The record stored in the `sessions` map.  The socket object is
abstracted to the identity of its connection handle. -/
structure SessionRecord : Type where
  sockId : Nat
  phone : String
  status : SessStatus
  sessionString : Option String
  createdAt : Nat
deriving DecidableEq, Repr

/-- The observable state of the process: the in-memory `sessions` map,
the on-disk `sessions/<id>` directories, and the set of open connection
handles. -/
structure ServerState : Type where
  sessions : List (String × SessionRecord)
  dirs : List (String × List Entry)
  openSocks : List Nat
deriving DecidableEq, Repr

def initialState : ServerState := ⟨[], [], []⟩

/-- The function `cleanupSession(sessionId)`: remove the on-disk directory if it
exists, end the socket of the registered record if any, delete the map
entry. -/
def cleanupSession (st : ServerState) (sessionId : String) : ServerState :=
  let socks :=
    match aget st.sessions sessionId with
    | some s => st.openSocks.filter (fun n => n ≠ s.sockId)
    | none => st.openSocks
  { sessions := aerase st.sessions sessionId,
    dirs := aerase st.dirs sessionId,
    openSocks := socks }

/-- The call `fse.ensureDirSync`: create the directory empty when absent, keep it
when present. -/
def ensureDir (dirs : List (String × List Entry)) (sessionId : String) :
    List (String × List Entry) :=
  match aget dirs sessionId with
  | some _ => dirs
  | none => aset dirs sessionId []

/-- The digit filter applied to the phone field by the regex replace with the class of non-digits. -/
def stripNonDigits (s : String) : String :=
  String.mk (s.toList.filter Char.isDigit)

/-! ## The POST /api/pair handler -/

/-- The outcomes of the external calls the handler awaits: the id from
`generateId`, the handle of the constructed socket, a possible raised
error while provisioning (auth state, version fetch, socket
construction), and the result of `requestPairingCode`. -/
structure PairEnv : Type where
  newId : String
  sockId : Nat
  provisionError : Option String
  codeResult : Except String String
deriving Repr

structure PairResp : Type where
  httpStatus : Nat
  success : Bool
  code : Option String
  sessionId : Option String
  message : String
deriving DecidableEq, Repr

/-- The `/api/pair` handler of the first copy: validation, directory
creation, socket provisioning, record insertion, pairing-code request,
and the success or failure response, with `cleanupSession` on the failure
paths. -/
def pairHandler (st : ServerState) (phone : Option String) (env : PairEnv)
    (now : Nat) : PairResp × ServerState :=
  match phone with
  | none => (⟨400, false, none, none, "Phone number is required"⟩, st)
  | some p =>
      if p = "" then (⟨400, false, none, none, "Phone number is required"⟩, st)
      else
        let cleanPhone := stripNonDigits p
        if cleanPhone.length < 7 then
          (⟨400, false, none, none, "Invalid phone number — must include country code"⟩, st)
        else
          let sessionId := env.newId
          let st1 : ServerState := { st with dirs := ensureDir st.dirs sessionId }
          match env.provisionError with
          | some e =>
              (⟨500, false, none, none, "Server error: " ++ e⟩,
                cleanupSession st1 sessionId)
          | none =>
              let st2 : ServerState :=
                { st1 with
                  openSocks := env.sockId :: st1.openSocks,
                  sessions := aset st1.sessions sessionId
                    ⟨env.sockId, cleanPhone, .pending, none, now⟩ }
              match env.codeResult with
              | .error e =>
                  (⟨500, false, none, none, "Failed to get pairing code: " ++ e⟩,
                    cleanupSession st2 sessionId)
              | .ok code =>
                  (⟨200, true, some (formatCode code), some sessionId,
                      "Pairing code generated!"⟩, st2)

/-- The `/api/pair` handler of the second copy: identical shape, but the
validation threshold is 10 digits and the message strings differ. -/
def pairHandler2 (st : ServerState) (phone : Option String) (env : PairEnv)
    (now : Nat) : PairResp × ServerState :=
  match phone with
  | none => (⟨400, false, none, none, "Phone number required"⟩, st)
  | some p =>
      if p = "" then (⟨400, false, none, none, "Phone number required"⟩, st)
      else
        let cleanPhone := stripNonDigits p
        if cleanPhone.length < 10 then
          (⟨400, false, none, none, "Invalid phone number"⟩, st)
        else
          let sessionId := env.newId
          let st1 : ServerState := { st with dirs := ensureDir st.dirs sessionId }
          match env.provisionError with
          | some e =>
              (⟨500, false, none, none, e⟩, cleanupSession st1 sessionId)
          | none =>
              let st2 : ServerState :=
                { st1 with
                  openSocks := env.sockId :: st1.openSocks,
                  sessions := aset st1.sessions sessionId
                    ⟨env.sockId, cleanPhone, .pending, none, now⟩ }
              match env.codeResult with
              | .error _ =>
                  (⟨500, false, none, none,
                      "Failed to get pairing code. Check your number!"⟩,
                    cleanupSession st2 sessionId)
              | .ok code =>
                  (⟨200, true, some (formatCode code), some sessionId,
                      "Pairing code generated!"⟩, st2)

/-! ## The GET /api/status and GET /api/session handlers -/

structure StatusResp : Type where
  httpStatus : Nat
  status : String
deriving DecidableEq, Repr

/-- The `/api/status/:sessionId` handler. -/
def statusHandler (st : ServerState) (sessionId : String) : StatusResp :=
  match aget st.sessions sessionId with
  | none => ⟨200, "not_found"⟩
  | some s => ⟨200, s.status.str⟩

structure SessResp : Type where
  httpStatus : Nat
  success : Bool
  sessionId : Option String
  sessionString : Option String
  message : Option String
deriving DecidableEq, Repr

/-- The `/api/session/:sessionId` handler.  Note `!session.sessionString`
is a JS falsiness test: both `null` and the empty string take the 500
branch. -/
def sessionHandler (st : ServerState) (sessionId : String) : SessResp :=
  match aget st.sessions sessionId with
  | none => ⟨404, false, none, none, some "Session not found or expired"⟩
  | some s =>
      if s.status ≠ .connected then
        ⟨400, false, none, none, some ("Not connected yet — status: " ++ s.status.str)⟩
      else
        match s.sessionString with
        | none =>
            ⟨500, false, none, none,
              some "Session string not ready yet — try again in a few seconds"⟩
        | some str =>
            if str = "" then
              ⟨500, false, none, none,
                some "Session string not ready yet — try again in a few seconds"⟩
            else ⟨200, true, some sessionId, some str, none⟩

/-! ## Lifecycle events -/

/-- The `connection.update` open callback: save and settle (the writes
themselves are `libWrite` events), encode the session directory, then set
the record connected with the encode result if the record still exists. -/
def connOpen (st : ServerState) (sessionId : String) : ServerState :=
  let sessionString := encodeSession (aget st.dirs sessionId)
  match aget st.sessions sessionId with
  | some s =>
      { st with
        sessions := aset st.sessions sessionId
          { s with status := .connected, sessionString := sessionString } }
  | none => st

/-- The `connection.update` close callback: cleanup only when the
disconnect reason is a logout. -/
def connClose (st : ServerState) (sessionId : String) (loggedOut : Bool) :
    ServerState :=
  if loggedOut then cleanupSession st sessionId else st

/-- The five-minute watchdog: cleanup only when the record still exists
and is still pending. -/
def watchdogFire (st : ServerState) (sessionId : String) : ServerState :=
  match aget st.sessions sessionId with
  | some s => if s.status = .pending then cleanupSession st sessionId else st
  | none => st

/-- One externally triggered transition of the server. `libWrite` models
the messaging library writing credential files into the session
directory (`saveCreds`, `creds.update`); `expiryEv` is the unconditional
15-minute post-connect cleanup timer. -/
inductive Event : Type where
  | pairReq (phone : Option String) (env : PairEnv) (now : Nat)
  | libWrite (sessionId : String) (contents : List Entry)
  | connOpenEv (sessionId : String)
  | connCloseEv (sessionId : String) (loggedOut : Bool)
  | watchdogEv (sessionId : String)
  | expiryEv (sessionId : String)

def stepF (st : ServerState) : Event → ServerState
  | .pairReq phone env now => (pairHandler st phone env now).2
  | .libWrite sessionId contents => { st with dirs := aset st.dirs sessionId contents }
  | .connOpenEv sessionId => connOpen st sessionId
  | .connCloseEv sessionId loggedOut => connClose st sessionId loggedOut
  | .watchdogEv sessionId => watchdogFire st sessionId
  | .expiryEv sessionId => cleanupSession st sessionId

/-- The states the server can reach from process start. -/
inductive Reach : ServerState → Prop where
  | init : Reach initialState
  | next {st : ServerState} (h : Reach st) (e : Event) : Reach (stepF st e)

/-! ## Helper lemmas: the encoder never returns the empty string -/

theorem base64EncodeCore_ne_nil (a : Nat) (l : List Nat) :
    base64EncodeCore (a :: l) ≠ [] := by
  match l with
  | [] => simp [base64EncodeCore]
  | [_] => simp [base64EncodeCore]
  | _ :: _ :: _ => simp [base64EncodeCore]

theorem utf8EncodeChar_ne_nil (c : Char) : utf8EncodeChar c ≠ [] := by
  simp only [utf8EncodeChar]
  split_ifs <;> simp

theorem strBytes_ne_nil (s : String) (h : s.data ≠ []) : strBytes s ≠ [] := by
  unfold strBytes
  match hs : s.toList with
  | [] => exact absurd hs h
  | c :: rest =>
      simp only [hs, List.map_cons, List.flatten_cons, ne_eq, List.append_eq_nil]
      intro hcontra
      exact utf8EncodeChar_ne_nil c hcontra.1

theorem jsonStringify_data_ne_nil (fs : List (String × String)) :
    (jsonStringify fs).data ≠ [] := by
  have h7b : ("\x7b" : String).data = ['\x7b'] := rfl
  simp [jsonStringify, String.data_append, h7b]

theorem encodeResult_ne_empty (fs : List (String × String)) :
    base64Encode (strBytes (jsonStringify fs)) ≠ "" := by
  intro h
  have hdata : (base64Encode (strBytes (jsonStringify fs))).data = [] :=
    congrArg String.data h
  simp only [base64Encode] at hdata
  match hb : strBytes (jsonStringify fs) with
  | [] => exact strBytes_ne_nil _ (jsonStringify_data_ne_nil fs) hb
  | a :: l =>
      rw [hb] at hdata
      exact base64EncodeCore_ne_nil a l hdata

theorem encodeSession_ne_empty (dir : Option (List Entry)) (str : String)
    (h : encodeSession dir = some str) : str ≠ "" := by
  match dir with
  | none => simp [encodeSession] at h
  | some entries =>
      simp only [encodeSession] at h
      split at h
      · match hc : collectFiles entries with
        | none => rw [hc] at h; simp at h
        | some fs =>
            rw [hc] at h
            have heq : base64Encode (strBytes (jsonStringify fs)) = str := by
              simpa using h
            rw [← heq]
            exact encodeResult_ne_empty fs
      · simp at h

/-! ## The lifecycle invariant -/

/-- The per-record invariant of the spec: a pending record has no session
string, and a present session string implies the record is connected and
the string is a real (non-empty) encoder output. -/
def RecordOk (s : SessionRecord) : Prop :=
  (s.status = .pending → s.sessionString = none) ∧
  ∀ str, s.sessionString = some str → s.status = .connected ∧ str ≠ ""

def InvS (m : List (String × SessionRecord)) : Prop :=
  ∀ sessionId s, aget m sessionId = some s → RecordOk s

theorem invS_erase (m : List (String × SessionRecord)) (k : String)
    (h : InvS m) : InvS (aerase m k) := by
  intro sessionId s hs
  rw [aget_aerase] at hs
  by_cases hk : k = sessionId
  · simp [hk] at hs
  · exact h sessionId s (by simpa [hk] using hs)

theorem invS_set (m : List (String × SessionRecord)) (k : String)
    (v : SessionRecord) (h : InvS m) (hv : RecordOk v) : InvS (aset m k v) := by
  intro sessionId s hs
  rw [aget_aset] at hs
  by_cases hk : k = sessionId
  · simp [hk] at hs; exact hs ▸ hv
  · exact h sessionId s (by simpa [hk] using hs)

theorem invS_cleanup (st : ServerState) (sessionId : String)
    (h : InvS st.sessions) : InvS (cleanupSession st sessionId).sessions :=
  invS_erase st.sessions sessionId h

/-- Every reachable server state satisfies the record invariant. -/
theorem reach_inv {st : ServerState} (h : Reach st) : InvS st.sessions := by
  induction h with
  | init => intro sessionId s hs; simp [initialState, aget] at hs
  | next h e ih =>
      rename_i st'
      cases e with
      | pairReq phone env now =>
          cases phone with
          | none => simpa [stepF, pairHandler] using ih
          | some p =>
              by_cases hp : p = ""
              · simpa [stepF, pairHandler, hp] using ih
              · by_cases hlen : (stripNonDigits p).length < 7
                · simpa [stepF, pairHandler, hp, hlen] using ih
                · have hrec : RecordOk
                      ⟨env.sockId, stripNonDigits p, .pending, none, now⟩ := by
                    constructor
                    · intro; rfl
                    · intro str hstr; simp at hstr
                  cases hprov : env.provisionError with
                  | some e' =>
                      simp [stepF, pairHandler, hp, hlen, hprov]
                      exact invS_cleanup _ _ ih
                  | none =>
                      cases hcode : env.codeResult with
                      | error e' =>
                          simp [stepF, pairHandler, hp, hlen, hprov, hcode]
                          exact invS_cleanup
                            { st' with
                              dirs := ensureDir st'.dirs env.newId,
                              openSocks := env.sockId :: st'.openSocks,
                              sessions := aset st'.sessions env.newId
                                ⟨env.sockId, stripNonDigits p, .pending, none, now⟩ } _
                            (invS_set _ _ _ ih hrec)
                      | ok code =>
                          simp [stepF, pairHandler, hp, hlen, hprov, hcode]
                          exact invS_set _ _ _ ih hrec
      | libWrite sessionId contents => simpa [stepF] using ih
      | connOpenEv sessionId =>
          simp only [stepF, connOpen]
          match hs0 : aget st'.sessions sessionId with
          | none => simpa using ih
          | some s0 =>
              simp only []
              refine invS_set _ _ _ ih ?_
              constructor
              · intro hpend; simp at hpend
              · intro str hstr
                exact ⟨rfl, encodeSession_ne_empty _ _ hstr⟩
      | connCloseEv sessionId loggedOut =>
          by_cases hlo : loggedOut = true
          · simp only [stepF, connClose, hlo, if_true]
            exact invS_cleanup _ _ ih
          · simp only [stepF, connClose]
            simp at hlo
            simpa [hlo] using ih
      | watchdogEv sessionId =>
          simp only [stepF, watchdogFire]
          match hs0 : aget st'.sessions sessionId with
          | none => simpa using ih
          | some s0 =>
              by_cases hpend : s0.status = .pending
              · simp only [hpend, if_true]
                exact invS_cleanup _ _ ih
              · simpa [hpend] using ih
      | expiryEv sessionId =>
          simp only [stepF]
          exact invS_cleanup _ _ ih

/-! ## Theorems -/

/-- C4: for every session id, calling `cleanupSession` twice has the same
observable effect on the session map, the connection handle and the
on-disk directory as calling it once: the second call is a no-op and, the
embedding being a total function, raises no error. -/
theorem cleanupSession_idempotent (st : ServerState) (sessionId : String) :
    cleanupSession (cleanupSession st sessionId) sessionId =
      cleanupSession st sessionId := by
  simp [cleanupSession, aget_aerase_self, aerase_aerase]

/-- C1: a request whose phone field has fewer than seven digits after
stripping non-digits is answered with HTTP 400 and `success:false`, and
the whole server state — session map, directories, handles — is returned
unchanged, under both copies of the handler. -/
theorem pair_rejects_short_phone (st : ServerState) (p : String) (env : PairEnv)
    (now : Nat) (h : (stripNonDigits p).length < 7) :
    (pairHandler st (some p) env now).1.httpStatus = 400 ∧
    (pairHandler st (some p) env now).1.success = false ∧
    (pairHandler st (some p) env now).2 = st ∧
    (pairHandler2 st (some p) env now).1.httpStatus = 400 ∧
    (pairHandler2 st (some p) env now).1.success = false ∧
    (pairHandler2 st (some p) env now).2 = st := by
  have h10 : (stripNonDigits p).length < 10 := by omega
  by_cases hp : p = ""
  · simp [pairHandler, pairHandler2, hp]
  · simp [pairHandler, pairHandler2, hp, h, h10]

theorem pair_rejects_short_phone_witness :
    (stripNonDigits "+1-555").length < 7 ∧
    ((pairHandler initialState (some "+1-555") ⟨"S", 7, none, Except.ok "K7F2P9QX"⟩ 3).1.httpStatus = 400 ∧
     (pairHandler initialState (some "+1-555") ⟨"S", 7, none, Except.ok "K7F2P9QX"⟩ 3).1.success = false ∧
     (pairHandler initialState (some "+1-555") ⟨"S", 7, none, Except.ok "K7F2P9QX"⟩ 3).2 = initialState ∧
     (pairHandler2 initialState (some "+1-555") ⟨"S", 7, none, Except.ok "K7F2P9QX"⟩ 3).1.httpStatus = 400 ∧
     (pairHandler2 initialState (some "+1-555") ⟨"S", 7, none, Except.ok "K7F2P9QX"⟩ 3).1.success = false ∧
     (pairHandler2 initialState (some "+1-555") ⟨"S", 7, none, Except.ok "K7F2P9QX"⟩ 3).2 = initialState) :=
  ⟨by decide,
   pair_rejects_short_phone initialState "+1-555" ⟨"S", 7, none, Except.ok "K7F2P9QX"⟩ 3 (by decide)⟩

/-- C10: an id absent from the store gets HTTP 200 with body
`status: not_found` from the status endpoint, while the session endpoint
answers the same id with HTTP 404. -/
theorem status_not_found_is_http200 (st : ServerState) (sessionId : String)
    (h : aget st.sessions sessionId = none) :
    (statusHandler st sessionId).httpStatus = 200 ∧
    (statusHandler st sessionId).status = "not_found" ∧
    (sessionHandler st sessionId).httpStatus = 404 := by
  simp [statusHandler, sessionHandler, h]

theorem status_not_found_is_http200_witness :
    aget initialState.sessions "GHOST" = none ∧
    ((statusHandler initialState "GHOST").httpStatus = 200 ∧
     (statusHandler initialState "GHOST").status = "not_found" ∧
     (sessionHandler initialState "GHOST").httpStatus = 404) :=
  ⟨by decide, status_not_found_is_http200 initialState "GHOST" (by decide)⟩

/-- C6: the status endpoint always answers HTTP 200 with a status that is
`not_found` exactly for unknown ids and otherwise the status of the stored
record, hence always one of not_found / pending / connected / closed. -/
theorem status_endpoint_range (st : ServerState) (sessionId : String) :
    (statusHandler st sessionId).httpStatus = 200 ∧
    ((statusHandler st sessionId).status = "not_found" ∨
     (statusHandler st sessionId).status = "pending" ∨
     (statusHandler st sessionId).status = "connected" ∨
     (statusHandler st sessionId).status = "closed") ∧
    (aget st.sessions sessionId = none ↔
      (statusHandler st sessionId).status = "not_found") ∧
    (∀ s, aget st.sessions sessionId = some s →
      (statusHandler st sessionId).status = s.status.str) := by
  match hs : aget st.sessions sessionId with
  | none => simp [statusHandler, hs]
  | some s =>
      cases h : s.status <;>
        simp [statusHandler, hs, SessStatus.str, h]

/-! ## A concrete reachable run used by witnesses -/

def demoEnv : PairEnv := ⟨"S", 7, none, Except.ok "K7F2P9QX"⟩

/-- A successful pairing request from phone `1234567`. -/
def demoPending : ServerState :=
  stepF initialState (.pairReq (some "1234567") demoEnv 0)

/-- The library then persists `creds.json` into the session directory. -/
def demoWritten : ServerState :=
  stepF demoPending (.libWrite "S" [.file "creds.json" "\x7b\x7d"])

/-- Finally the connection-open notification arrives. -/
def demoConnected : ServerState :=
  stepF demoWritten (.connOpenEv "S")

def demoBlob : String := "eyJjcmVkcy5qc29uIjoie30ifQ=="

def demoRecord : SessionRecord := ⟨7, "1234567", .connected, some demoBlob, 0⟩

theorem demoConnected_reach : Reach demoConnected :=
  Reach.next
    (Reach.next
      (Reach.next Reach.init (.pairReq (some "1234567") demoEnv 0))
      (.libWrite "S" [.file "creds.json" "\x7b\x7d"]))
    (.connOpenEv "S")

/-- C8: in every reachable state a pending record has a null session
string and a non-null session string implies the record is connected; and
the connection-open transition stores exactly the result of the encoder, so
the string is non-null precisely when encoding succeeded. -/
theorem sessionString_iff_connected :
    (∀ st, Reach st → ∀ sessionId s, aget st.sessions sessionId = some s →
      (s.status = .pending → s.sessionString = none) ∧
      (s.sessionString ≠ none → s.status = .connected)) ∧
    (∀ st sessionId s, aget st.sessions sessionId = some s →
      aget (connOpen st sessionId).sessions sessionId =
        some { s with status := .connected,
                      sessionString := encodeSession (aget st.dirs sessionId) }) := by
  constructor
  · intro st h sessionId s hs
    obtain ⟨h1, h2⟩ := reach_inv h sessionId s hs
    refine ⟨h1, ?_⟩
    intro hne
    match hstr : s.sessionString with
    | none => exact absurd hstr hne
    | some str => exact (h2 str hstr).1
  · intro st sessionId s hs
    simp [connOpen, hs, aget_aset]

theorem sessionString_iff_connected_witness :
    ((demoRecord.status = .pending → demoRecord.sessionString = none) ∧
     (demoRecord.sessionString ≠ none → demoRecord.status = .connected)) ∧
    aget (connOpen demoWritten "S").sessions "S" =
      some { (⟨7, "1234567", .pending, none, 0⟩ : SessionRecord) with
             status := .connected,
             sessionString := encodeSession (aget demoWritten.dirs "S") } :=
  ⟨sessionString_iff_connected.1 demoConnected demoConnected_reach "S"
      demoRecord (by decide),
   sessionString_iff_connected.2 demoWritten "S"
      ⟨7, "1234567", .pending, none, 0⟩ (by decide)⟩

/-- C7: over reachable states, the session endpoint answers success
exactly for a stored, connected record with a non-null session string,
and otherwise 404 for unknown ids, 400 when not yet connected, 500 when
connected but not yet encoded. -/
theorem session_endpoint_contract (st : ServerState) (hreach : Reach st)
    (sessionId : String) :
    ((sessionHandler st sessionId).success = true ↔
      ∃ s str, aget st.sessions sessionId = some s ∧
        s.status = .connected ∧ s.sessionString = some str) ∧
    (aget st.sessions sessionId = none →
      (sessionHandler st sessionId).httpStatus = 404) ∧
    (∀ s, aget st.sessions sessionId = some s → s.status ≠ .connected →
      (sessionHandler st sessionId).httpStatus = 400) ∧
    (∀ s, aget st.sessions sessionId = some s → s.status = .connected →
      s.sessionString = none → (sessionHandler st sessionId).httpStatus = 500) ∧
    (∀ s str, aget st.sessions sessionId = some s → s.status = .connected →
      s.sessionString = some str →
      sessionHandler st sessionId = ⟨200, true, some sessionId, some str, none⟩) := by
  have hinv := reach_inv hreach
  match hs : aget st.sessions sessionId with
  | none => refine ⟨?_, ?_, ?_, ?_, ?_⟩ <;> simp [sessionHandler, hs]
  | some s =>
      have hrec := hinv sessionId s hs
      cases hstat : s.status with
      | pending =>
          refine ⟨?_, ?_, ?_, ?_, ?_⟩ <;> simp [sessionHandler, hs, hstat]
          rintro s' str2 rfl hconn
          simp [hstat] at hconn
      | connected =>
          match hstr : s.sessionString with
          | none =>
              refine ⟨?_, ?_, ?_, ?_, ?_⟩ <;> simp [sessionHandler, hs, hstat, hstr]
              rintro s' str2 rfl hconn hsome
              rw [hstr] at hsome
              exact Option.noConfusion hsome
          | some str =>
              have hne : str ≠ "" := (hrec.2 str hstr).2
              refine ⟨?_, ?_, ?_, ?_, ?_⟩ <;>
                simp [sessionHandler, hs, hstat, hstr, hne]
              rintro s' str2 rfl hconn hsome
              rw [hstr] at hsome
              exact Option.some.inj hsome

theorem session_endpoint_contract_witness :
    sessionHandler demoConnected "S" = ⟨200, true, some "S", some demoBlob, none⟩ :=
  (session_endpoint_contract demoConnected demoConnected_reach "S").2.2.2.2
    demoRecord demoBlob (by decide) rfl rfl

theorem status_endpoint_range_witness :
    ((statusHandler initialState "GHOST").httpStatus = 200 ∧
     ((statusHandler initialState "GHOST").status = "not_found" ∨
      (statusHandler initialState "GHOST").status = "pending" ∨
      (statusHandler initialState "GHOST").status = "connected" ∨
      (statusHandler initialState "GHOST").status = "closed") ∧
     (aget initialState.sessions "GHOST" = none ↔
       (statusHandler initialState "GHOST").status = "not_found") ∧
     (∀ s, aget initialState.sessions "GHOST" = some s →
       (statusHandler initialState "GHOST").status = s.status.str)) :=
  status_endpoint_range initialState "GHOST"

/-! ## Encoder lemmas for C2/C5 -/

theorem collectFiles_of_unreadable (entries : List Entry) (n : String)
    (h : Entry.unreadable n ∈ entries) : collectFiles entries = none := by
  induction entries with
  | nil => simp at h
  | cons e rest ih =>
      cases e with
      | file nm c =>
          have : Entry.unreadable n ∈ rest := by
            rcases List.mem_cons.mp h with h1 | h1
            · exact absurd h1 (by simp)
            · exact h1
          simp [collectFiles, ih this]
      | subdir nm =>
          have : Entry.unreadable n ∈ rest := by
            rcases List.mem_cons.mp h with h1 | h1
            · exact absurd h1 (by simp)
            · exact h1
          simp [collectFiles, ih this]
      | unreadable nm => simp [collectFiles]

theorem collectFiles2_of_bad (entries : List Entry) (n : String)
    (h : Entry.unreadable n ∈ entries ∨ Entry.subdir n ∈ entries) :
    collectFiles2 entries = none := by
  induction entries with
  | nil => simp at h
  | cons e rest ih =>
      cases e with
      | file nm c =>
          have : Entry.unreadable n ∈ rest ∨ Entry.subdir n ∈ rest := by
            rcases h with h1 | h1 <;> rcases List.mem_cons.mp h1 with h2 | h2
            · exact absurd h2 (by simp)
            · exact Or.inl h2
            · exact absurd h2 (by simp)
            · exact Or.inr h2
          simp [collectFiles2, ih this]
      | subdir nm => simp [collectFiles2]
      | unreadable nm => simp [collectFiles2]

theorem collectFiles_eq_regularFiles (entries : List Entry)
    (h : ∀ n, Entry.unreadable n ∉ entries) :
    collectFiles entries = some (regularFiles entries) := by
  induction entries with
  | nil => rfl
  | cons e rest ih =>
      have hrest : ∀ n, Entry.unreadable n ∉ rest := by
        intro n hn
        exact h n (List.mem_cons_of_mem _ hn)
      cases e with
      | file nm c => simp [collectFiles, regularFiles, ih hrest]
      | subdir nm =>
          simp only [collectFiles, regularFiles, List.filterMap_cons]
          simpa [regularFiles] using ih hrest
      | unreadable nm => exact absurd (List.mem_cons_self _ _) (h nm)

theorem collectFiles2_eq_regularFiles (entries : List Entry)
    (h : ∀ n, Entry.unreadable n ∉ entries) (h2 : ∀ n, Entry.subdir n ∉ entries) :
    collectFiles2 entries = some (regularFiles entries) := by
  induction entries with
  | nil => rfl
  | cons e rest ih =>
      have hrest : ∀ n, Entry.unreadable n ∉ rest := by
        intro n hn
        exact h n (List.mem_cons_of_mem _ hn)
      have hrest2 : ∀ n, Entry.subdir n ∉ rest := by
        intro n hn
        exact h2 n (List.mem_cons_of_mem _ hn)
      cases e with
      | file nm c => simp [collectFiles2, regularFiles, ih hrest hrest2]
      | subdir nm => exact absurd (List.mem_cons_self _ _) (h2 nm)
      | unreadable nm => exact absurd (List.mem_cons_self _ _) (h nm)

/-- C2: the credential encoder (both copies) is a total function that
yields null — never a propagated error — when the directory is missing,
when the marker file `creds.json` is absent, and when any entry fails to
stat or read. -/
theorem encode_not_ready (entries : List Entry) :
    encodeSession none = none ∧
    encodeSession2 none = none ∧
    (hasCreds entries = false →
      encodeSession (some entries) = none ∧ encodeSession2 (some entries) = none) ∧
    (∀ n, Entry.unreadable n ∈ entries →
      encodeSession (some entries) = none ∧ encodeSession2 (some entries) = none) := by
  refine ⟨rfl, rfl, ?_, ?_⟩
  · intro h
    simp [encodeSession, encodeSession2, h]
  · intro n hn
    constructor
    · simp [encodeSession, collectFiles_of_unreadable entries n hn]
    · simp [encodeSession2, collectFiles2_of_bad entries n (Or.inl hn)]

theorem encode_not_ready_witness :
    (encodeSession none = none ∧
     encodeSession2 none = none ∧
     (hasCreds [Entry.file "app.json" "1"] = false →
       encodeSession (some [Entry.file "app.json" "1"]) = none ∧
       encodeSession2 (some [Entry.file "app.json" "1"]) = none) ∧
     (∀ n, Entry.unreadable n ∈ [Entry.file "app.json" "1"] →
       encodeSession (some [Entry.file "app.json" "1"]) = none ∧
       encodeSession2 (some [Entry.file "app.json" "1"]) = none)) ∧
    (hasCreds [Entry.file "app.json" "1"] = false →
      encodeSession (some [Entry.file "app.json" "1"]) = none) ∧
    (Entry.unreadable "ghost" ∈
        [Entry.file "creds.json" "c", Entry.unreadable "ghost"] →
      encodeSession (some [Entry.file "creds.json" "c", Entry.unreadable "ghost"]) = none) :=
  ⟨encode_not_ready [Entry.file "app.json" "1"],
   fun h => ((encode_not_ready [Entry.file "app.json" "1"]).2.2.1 h).1,
   fun h => ((encode_not_ready
      [Entry.file "creds.json" "c", Entry.unreadable "ghost"]).2.2.2 "ghost" h).1⟩

/-- C5 as stated is false for the second copy of `encodeSession`: on a
directory holding the marker, a regular file and a subdirectory, the
second copy returns null instead of the mapping of the two regular-file
children (its `readFileSync` on the subdirectory raises and is caught),
so the subdirectory entry is not skipped. -/
theorem encoder_subdir_counterexample :
    encodeSession2 (some [Entry.file "creds.json" "\x7b\x7d", Entry.subdir "keys",
        Entry.file "app-state-sync-version.json" "v"]) = none ∧
    regularFiles [Entry.file "creds.json" "\x7b\x7d", Entry.subdir "keys",
        Entry.file "app-state-sync-version.json" "v"] =
      [("creds.json", "\x7b\x7d"), ("app-state-sync-version.json", "v")] ∧
    encodeSession2 (some [Entry.file "creds.json" "\x7b\x7d", Entry.subdir "keys",
        Entry.file "app-state-sync-version.json" "v"]) ≠
      some (base64Encode (strBytes (jsonStringify
        [("creds.json", "\x7b\x7d"), ("app-state-sync-version.json", "v")]))) := by
  refine ⟨rfl, rfl, ?_⟩
  intro h
  exact Option.noConfusion h

/-- C5 amended: the first (and third) copy of the encoder includes exactly
the direct regular-file children and skips subdirectory entries, never
descending into them; the second copy produces the same mapping when every
entry is a regular file, but returns null as soon as a subdirectory entry
is present. -/
theorem encoder_regular_files_only (entries : List Entry)
    (hmarker : hasCreds entries = true)
    (hok : ∀ n, Entry.unreadable n ∉ entries) :
    encodeSession (some entries) =
      some (base64Encode (strBytes (jsonStringify (regularFiles entries)))) ∧
    ((∀ n, Entry.subdir n ∉ entries) →
      encodeSession2 (some entries) =
        some (base64Encode (strBytes (jsonStringify (regularFiles entries))))) ∧
    (∀ n, Entry.subdir n ∈ entries → encodeSession2 (some entries) = none) := by
  refine ⟨?_, ?_, ?_⟩
  · simp [encodeSession, hmarker, collectFiles_eq_regularFiles entries hok]
  · intro h2
    simp [encodeSession2, hmarker, collectFiles2_eq_regularFiles entries hok h2]
  · intro n hn
    simp [encodeSession2, hmarker, collectFiles2_of_bad entries n (Or.inr hn)]

theorem encoder_regular_files_only_witness :
    (encodeSession (some [Entry.file "creds.json" "\x7b\x7d", Entry.subdir "keys",
        Entry.file "app-state-sync-version.json" "v"]) =
      some (base64Encode (strBytes (jsonStringify (regularFiles
        [Entry.file "creds.json" "\x7b\x7d", Entry.subdir "keys",
         Entry.file "app-state-sync-version.json" "v"])))) ∧
     ((∀ n, Entry.subdir n ∉ [Entry.file "creds.json" "\x7b\x7d", Entry.subdir "keys",
          Entry.file "app-state-sync-version.json" "v"]) →
       encodeSession2 (some [Entry.file "creds.json" "\x7b\x7d", Entry.subdir "keys",
          Entry.file "app-state-sync-version.json" "v"]) =
         some (base64Encode (strBytes (jsonStringify (regularFiles
           [Entry.file "creds.json" "\x7b\x7d", Entry.subdir "keys",
            Entry.file "app-state-sync-version.json" "v"]))))) ∧
     (∀ n, Entry.subdir n ∈ [Entry.file "creds.json" "\x7b\x7d", Entry.subdir "keys",
          Entry.file "app-state-sync-version.json" "v"] →
       encodeSession2 (some [Entry.file "creds.json" "\x7b\x7d", Entry.subdir "keys",
          Entry.file "app-state-sync-version.json" "v"]) = none)) :=
  encoder_regular_files_only
    [Entry.file "creds.json" "\x7b\x7d", Entry.subdir "keys",
     Entry.file "app-state-sync-version.json" "v"]
    (by decide) (by intro n hn; simp at hn)

/-- C3 as stated is false: a directory containing exactly the files
`a` and `b` lacks the marker `creds.json`, so the encoder returns null
and no blob is produced that could decode back to the mapping. -/
theorem roundtrip_counterexample :
    encodeSession (some [Entry.file "a" "x", Entry.file "b" "y"]) = none ∧
    (encodeSession (some [Entry.file "a" "x", Entry.file "b" "y"])).bind decodeBlob
      = none := by
  exact ⟨rfl, rfl⟩

/-- C3 amended: for a directory that also holds the marker file, encoding
and then decoding (base64-decode, then JSON parse) reproduces exactly the
file mapping of the directory; with only `a` and `b` present the encoder
returns null. -/
theorem roundtrip_with_marker :
    (encodeSession (some [Entry.file "creds.json" "\x7b\x7d",
        Entry.file "a" "x", Entry.file "b" "y"])).bind decodeBlob =
      some [("creds.json", "\x7b\x7d"), ("a", "x"), ("b", "y")] ∧
    encodeSession (some [Entry.file "a" "x", Entry.file "b" "y"]) = none := by
  exact ⟨by decide, rfl⟩

/-! ## Code formatting lemmas for C9 -/

theorem dotChunks_eq_chunksOf4 (s : List Char)
    (h : ∀ c ∈ s, isLineTerm c = false) : dotChunks s = chunksOf4 s := by
  match s with
  | [] => rfl
  | [a] => simp [dotChunks, chunksOf4, h a (by simp)]
  | [a, b] => simp [dotChunks, chunksOf4, h a (by simp), h b (by simp)]
  | [a, b, c] =>
      simp [dotChunks, chunksOf4, h a (by simp), h b (by simp), h c (by simp)]
  | a :: b :: c :: d :: rest =>
      have ih := dotChunks_eq_chunksOf4 rest (fun x hx => h x (by simp [hx]))
      simp [dotChunks, chunksOf4, h a (by simp), h b (by simp), h c (by simp),
        h d (by simp), ih]

theorem chunksOf4_ne_nil (c : Char) (cs : List Char) :
    chunksOf4 (c :: cs) ≠ [] := by
  match cs with
  | [] => simp [chunksOf4]
  | [b] => simp [chunksOf4]
  | [b, d] => simp [chunksOf4]
  | b :: d :: e :: rest => simp [chunksOf4]

/-- On codes free of line terminators the regex-based formatting is
exactly the partition into groups of at most four joined by dashes. -/
theorem formatCode_eq_partitionJoin (code : String)
    (h : ∀ c ∈ code.toList, isLineTerm c = false) :
    formatCode code = partitionJoin code := by
  unfold formatCode partitionJoin
  rw [dotChunks_eq_chunksOf4 code.toList h]
  cases hs : code.toList with
  | nil =>
      have hcode : code = "" := by
        cases code with
        | mk data =>
            simp only [String.toList] at hs
            simp [hs]
      rw [hcode]
      rfl
  | cons c cs =>
      have hne := chunksOf4_ne_nil c cs
      cases hX : chunksOf4 (c :: cs) with
      | nil => exact absurd hX hne
      | cons x xs => rfl

/-- C9 as stated is false for raw codes containing a line terminator: the
regex `.` does not match a newline, so the newline is dropped from the
groups instead of being carried in a group of four. -/
theorem formatted_code_counterexample :
    (pairHandler initialState (some "1234567")
        ⟨"S", 7, none, Except.ok "ab\ncd"⟩ 0).1.code = some (formatCode "ab\ncd") ∧
    formatCode "ab\ncd" = "ab-cd" ∧
    partitionJoin "ab\ncd" = "ab\nc-d" ∧
    formatCode "ab\ncd" ≠ partitionJoin "ab\ncd" := by
  refine ⟨rfl, rfl, rfl, ?_⟩
  decide

/-- C9 amended: when the pairing-code request succeeds the handler
responds 200 with the formatted code and the stored record is still
pending with a null session string; and provided the raw code contains no
line-terminator characters (outside the regex dot, and absent from real
pairing codes), the returned code is exactly the raw code partitioned
left-to-right into groups of at most four characters joined by dashes. -/
theorem pair_success_code_grouping (st : ServerState) (p : String)
    (env : PairEnv) (now : Nat) (raw : String)
    (hp : p ≠ "")
    (hlen : ¬ (stripNonDigits p).length < 7)
    (hprov : env.provisionError = none)
    (hcode : env.codeResult = .ok raw)
    (hraw : ∀ c ∈ raw.toList, isLineTerm c = false) :
    (pairHandler st (some p) env now).1 =
      ⟨200, true, some (partitionJoin raw), some env.newId,
        "Pairing code generated!"⟩ ∧
    aget (pairHandler st (some p) env now).2.sessions env.newId =
      some ⟨env.sockId, stripNonDigits p, .pending, none, now⟩ := by
  constructor
  · simp [pairHandler, hp, hlen, hprov, hcode,
      formatCode_eq_partitionJoin raw hraw]
  · simp [pairHandler, hp, hlen, hprov, hcode, aget_aset]

theorem pair_success_code_grouping_witness :
    (pairHandler initialState (some "1234567") demoEnv 0).1 =
      ⟨200, true, some (partitionJoin "K7F2P9QX"), some "S",
        "Pairing code generated!"⟩ ∧
    aget (pairHandler initialState (some "1234567") demoEnv 0).2.sessions "S" =
      some ⟨7, "1234567", .pending, none, 0⟩ :=
  pair_success_code_grouping initialState "1234567" demoEnv 0 "K7F2P9QX"
    (by decide) (by decide) rfl rfl (by decide)

end Almeer
